import Mathlib

/-!
Shallow embedding of the NTFS $LogFile restart-page engine
(src/kext/ntfs_logfile.c): the restart-area validator, the log-client-list
validator, the logfile scanner `ntfs_logfile_check`, the clean-shutdown
determiner `ntfs_logfile_is_clean` and the log reset `ntfs_logfile_empty`.

Machine integers are modelled as `Nat` (little-endian decoded field values);
the one place the C truncates an intermediate to a narrower type (the `u16`
assignment computing `ra_len`) carries an explicit `% 2 ^ 16`.  External
collaborators (page-cache reads, mst deprotection inside
`ntfs_restart_page_load`, `ntfs_attr_set`, vnode/lock lifecycle) are out of
scope per the specification and are modelled as oracle parameters at their
interface boundary.
-/

namespace NtfsLogfile

/-- Modelled from the spec: `NTFS_BLOCK_SIZE` from the layout headers (the
on-disk block size fixed by the NTFS format, §6 of the spec). -/
def NTFS_BLOCK_SIZE : Nat := 512

/-- Modelled from the spec: the "no client" sentinel `LOGFILE_NO_CLIENT`
(le16 0xffff) from the layout headers; `LOGFILE_NO_CLIENT_CPU` is the same
value in cpu byte order. -/
def LOGFILE_NO_CLIENT_CPU : Nat := 0xffff

/-- Modelled from the spec: the `RESTART_VOLUME_IS_CLEAN` flag bit in the
restart area's le16 `flags` field (the spec's "clean-volume flag bit"). -/
def RESTART_VOLUME_IS_CLEAN : Nat := 2

/-- errno EIO. -/
def EIO : Nat := 5

/-- errno ENOMEM. -/
def ENOMEM : Nat := 12

/-- errno EINVAL. -/
def EINVAL : Nat := 22

/-- Modelled from the spec: `sizeof(LOG_CLIENT_RECORD)` (160 bytes) per the
NTFS 1.1 on-disk layout the spec fixes in §6. -/
def sizeof_LOG_CLIENT_RECORD : Nat := 160

/-- Modelled from the spec: `offsetof(RESTART_AREA, file_size)` (24 bytes)
per the NTFS 1.1 on-disk layout the spec fixes in §6. -/
def offsetof_RESTART_AREA_file_size : Nat := 24

/-- Classification of the 4-byte record magic at the start of a block, as
tested by the `ntfs_is_*_record(p)` helpers. -/
inductive RecordMagic where
  | empty
  | rcrd
  | rstr
  | chkd
  | other
  deriving DecidableEq

/-- The RESTART_AREA on-disk structure (le fields decoded to `Nat`/`Int`).
`file_size` holds the u64 view `(u64)sle64_to_cpu(ra->file_size)` used by
the validator. -/
structure RESTART_AREA where
  current_lsn : Int
  log_clients : Nat
  client_free_list : Nat
  client_in_use_list : Nat
  flags : Nat
  seq_number_bits : Nat
  restart_area_length : Nat
  client_array_offset : Nat
  file_size : Nat
  log_record_header_length : Nat
  log_page_data_offset : Nat
  deriving DecidableEq

/-- The restart page header together with the restart area located at
`restart_area_offset` inside the same page buffer (field `ra` models the
`(RESTART_AREA*)((u8*)rp + le16_to_cpu(rp->restart_area_offset))` view).
Only the fields read by the embedded functions are carried. -/
structure RESTART_PAGE_HEADER where
  magic : RecordMagic
  system_page_size : Nat
  log_page_size : Nat
  restart_area_offset : Nat
  chkdsk_lsn : Int
  ra : RESTART_AREA
  deriving DecidableEq

/-- One element of the log client array: the two le16 list-link fields. -/
structure LOG_CLIENT_RECORD where
  prev_client : Nat
  next_client : Nat
  deriving DecidableEq

/-- One iteration of the C's `while (file_size) { file_size >>= 1; fs_bits++ }`
bit-length loop, with the iteration count made explicit.  `file_size` is a
u64 so 64 iterations always suffice on the C's domain. -/
def fs_bits_loop : Nat → Nat → Nat
  | 0, _ => 0
  | fuel + 1, fs => if fs = 0 then 0 else fs_bits_loop fuel (fs / 2) + 1

/-- Bit length of `file_size` by repeated right shift (zero has bit length
zero), as computed at src/kext/ntfs_logfile.c:254-258. -/
def fs_bits_of (fs : Nat) : Nat := fs_bits_loop 64 fs

/-- `(x + 7) & ~7`: round up to a multiple of 8 (the C's alignment idiom;
for `Nat` the mask is the same as subtracting the remainder). -/
def round8up (x : Nat) : Nat := (x + 7) - (x + 7) % 8

/-- The `seq_number_bits` consistency check of the restart-area validator
(src/kext/ntfs_logfile.c:249-263): the field must equal `67 - fs_bits`.
`fs_bits ≤ 64`, so the C's `(unsigned)(67 - fs_bits)` is the plain value. -/
def seq_number_bits_ok (ra : RESTART_AREA) : Bool :=
  ra.seq_number_bits == 67 - fs_bits_of ra.file_size

/-- `ntfs_restart_area_is_valid` (src/kext/ntfs_logfile.c:182-280): the
guard chain over the restart area at `rp.restart_area_offset`.  `ra_len` is
assigned to a `u16` in the C, hence the `% 2 ^ 16`. -/
def ntfs_restart_area_is_valid (rp : RESTART_PAGE_HEADER) : Bool :=
  let ra_ofs := rp.restart_area_offset
  let ra := rp.ra
  if NTFS_BLOCK_SIZE - 2 < ra_ofs + offsetof_RESTART_AREA_file_size then false
  else
    let ca_ofs := ra.client_array_offset
    if round8up ca_ofs ≠ ca_ofs ∨ NTFS_BLOCK_SIZE - 2 < ra_ofs + ca_ofs then false
    else
      let ra_len := (ca_ofs + ra.log_clients * sizeof_LOG_CLIENT_RECORD) % 2 ^ 16
      if rp.system_page_size < ra_ofs + ra_len ∨
          rp.system_page_size < ra_ofs + ra.restart_area_length ∨
          ra.restart_area_length < ra_len then false
      else if (ra.client_free_list ≠ LOGFILE_NO_CLIENT_CPU ∧
            ra.log_clients ≤ ra.client_free_list) ∨
          (ra.client_in_use_list ≠ LOGFILE_NO_CLIENT_CPU ∧
            ra.log_clients ≤ ra.client_in_use_list) then false
      else if ¬ seq_number_bits_ok ra then false
      else if round8up ra.log_record_header_length ≠ ra.log_record_header_length then
        false
      else if round8up ra.log_page_data_offset ≠ ra.log_page_data_offset then false
      else true

/-- The `check_list` loop of `ntfs_log_client_array_is_consistent`
(src/kext/ntfs_logfile.c:320-333): walk one client list from `idx`,
decrementing the budget `nr_clients` each step; fail (`none`) when the
budget is exhausted, an index is out of range, or the head record has a
predecessor; on reaching the sentinel return the remaining budget. -/
def check_list_loop (ca : Nat → LOG_CLIENT_RECORD) (log_clients : Nat) :
    Nat → Nat → Bool → Option Nat
  | 0, idx, _ => if idx = LOGFILE_NO_CLIENT_CPU then some 0 else none
  | n + 1, idx, idx_is_first =>
    if idx = LOGFILE_NO_CLIENT_CPU then some (n + 1)
    else if log_clients ≤ idx then none
    else if idx_is_first ∧ (ca idx).prev_client ≠ LOGFILE_NO_CLIENT_CPU then none
    else check_list_loop ca log_clients n (ca idx).next_client false

/-- `ntfs_log_client_array_is_consistent` (src/kext/ntfs_logfile.c:297-345):
check the free list and then the in-use list.  Note the budget `nr_clients`
is initialized once to `log_clients` and the remaining budget is carried
into the in-use-list traversal (the C does not reinitialize it at the
`check_list` re-entry). -/
def ntfs_log_client_array_is_consistent (ca : Nat → LOG_CLIENT_RECORD)
    (log_clients client_free_list client_in_use_list : Nat) : Bool :=
  match check_list_loop ca log_clients log_clients client_free_list true with
  | none => false
  | some nr' => (check_list_loop ca log_clients nr' client_in_use_list true).isSome

/-- The client-list validation as the specification's words describe it
("repeat for the in-use list with a fresh budget"): each list gets its own
budget of `log_clients`.  Stated for comparison with the source-embedded
`ntfs_log_client_array_is_consistent`. -/
def client_array_consistent_freshBudget (ca : Nat → LOG_CLIENT_RECORD)
    (log_clients client_free_list client_in_use_list : Nat) : Bool :=
  (check_list_loop ca log_clients log_clients client_free_list true).isSome &&
    (check_list_loop ca log_clients log_clients client_in_use_list true).isSome

/-- The same `check_list` loop instrumented to count how many client
records it dereferences before failing or reaching the sentinel. -/
def check_list_visits (ca : Nat → LOG_CLIENT_RECORD) (log_clients : Nat) :
    Nat → Nat → Bool → Nat
  | 0, _, _ => 0
  | n + 1, idx, idx_is_first =>
    if idx = LOGFILE_NO_CLIENT_CPU then 0
    else if log_clients ≤ idx then 0
    else if idx_is_first ∧ (ca idx).prev_client ≠ LOGFILE_NO_CLIENT_CPU then 1
    else 1 + check_list_visits ca log_clients n (ca idx).next_client false

/-- A well-formed client list over the array `ca`: the traversal sequence
from a head index to the sentinel, every visited index in range.  `n` is
`log_clients`. -/
inductive IsClientList (ca : Nat → LOG_CLIENT_RECORD) (n : Nat) : Nat → List Nat → Prop
  | nil : IsClientList ca n LOGFILE_NO_CLIENT_CPU []
  | cons {idx tail rest} : idx < n → (ca idx).next_client = tail →
      IsClientList ca n tail rest → IsClientList ca n idx (idx :: rest)

/-- `ntfs_logfile_is_clean` (src/kext/ntfs_logfile.c:749-784).
`logFileEmpty` is the volume's `NVolLogFileEmpty` flag; `none` for `rp`
models the C's `panic` on a NULL restart page, so the result is an
`Option Bool`. -/
def ntfs_logfile_is_clean (logFileEmpty : Bool)
    (rp : Option RESTART_PAGE_HEADER) : Option Bool :=
  if logFileEmpty then some true
  else
    match rp with
    | none => none
    | some p =>
      if p.magic ≠ RecordMagic.rstr ∧ p.magic ≠ RecordMagic.chkd then some false
      else if p.ra.client_in_use_list ≠ LOGFILE_NO_CLIENT_CPU ∧
          p.ra.flags &&& RESTART_VOLUME_IS_CLEAN = 0 then some false
      else some true

/-- The pair a successful `ntfs_restart_page_load` hands back to the
scanner: the deprotected restart page and its current LSN. -/
structure LoadOk where
  page : RESTART_PAGE_HEADER
  lsn : Int
  deriving DecidableEq

/-- Outcome of `ntfs_restart_page_load` at a candidate offset: success,
`EINVAL` (structurally invalid page, locally absorbed by the scanner), or a
propagated allocation/read errno. -/
inductive LoadResult where
  | ok (r : LoadOk)
  | invalid
  | fail (e : Nat)
  deriving DecidableEq

/-- The scanner's collaborators, abstracted at their interface boundary
(§6 of the spec): `magicAt` classifies the record magic of the block at a
byte offset, `mapErr` is the `ntfs_page_map` outcome for the page holding
that offset, and `load` is the `ntfs_restart_page_load` outcome for a
restart-page candidate at that offset. -/
structure Journal where
  magicAt : Nat → RecordMagic
  mapErr : Nat → Option Nat
  load : Nat → LoadResult

/-- The scan loop's accumulator: `logfile_is_empty` and the up-to-two
accepted restart pages `rstr1_ph`/`rstr2_ph` with their LSNs. -/
structure ScanAcc where
  isEmpty : Bool
  r1 : Option LoadOk
  r2 : Option LoadOk
  deriving DecidableEq

/-- How the scan loop ended: fell out / `break` (`done`), or `goto err`
with an errno (`fail`). -/
inductive ScanRes where
  | done (a : ScanAcc)
  | fail (e : Nat) (a : ScanAcc)
  deriving DecidableEq

/-- One loop-body outcome: `next` models `continue` (with the `pos = 256`
bump already applied by `nextPos`), `stop` models `break`/`goto err`. -/
inductive StepRes where
  | next (a : ScanAcc)
  | stop (r : ScanRes)
  deriving DecidableEq

/-- The offset update of the scan loop: the in-body
`if (!pos) pos = NTFS_BLOCK_SIZE / 2;` followed by the for-update
`pos <<= 1` (src/kext/ntfs_logfile.c:590,617-618). -/
def nextPos (pos : Nat) : Nat := (if pos = 0 then NTFS_BLOCK_SIZE / 2 else pos) <<< 1

/-- The body of the scan loop of `ntfs_logfile_check`
(src/kext/ntfs_logfile.c:590-677) for one offset `pos`: map the page,
classify the block, and feed restart-page candidates to the loader.  A
`ntfs_page_map` errno other than `EIO`/`ENOMEM` is remapped to `EIO`. -/
def scanBody (j : Journal) (pos : Nat) (a : ScanAcc) : StepRes :=
  match j.mapErr pos with
  | some e => StepRes.stop (ScanRes.fail (if e = EIO ∨ e = ENOMEM then e else EIO) a)
  | none =>
    match j.magicAt pos with
    | RecordMagic.empty =>
      if a.isEmpty then StepRes.next a else StepRes.stop (ScanRes.done a)
    | m =>
      let a1 : ScanAcc := { a with isEmpty := false }
      if m = RecordMagic.rcrd then StepRes.stop (ScanRes.done a1)
      else if ¬ (m = RecordMagic.rstr ∨ m = RecordMagic.chkd) then StepRes.next a1
      else
        match j.load pos with
        | LoadResult.ok r =>
          let a2 := if a1.r1.isNone then { a1 with r1 := some r }
            else { a1 with r2 := some r }
          if pos = 0 then StepRes.next a2 else StepRes.stop (ScanRes.done a2)
        | LoadResult.invalid => StepRes.next a1
        | LoadResult.fail e => StepRes.stop (ScanRes.fail e a1)

/-- The scan loop `for (pos = ppos = 0; pos < size; pos <<= 1)`.  The fuel
bounds the iteration count; `pos` doubles every step, so the `size + 1`
fuel `ntfs_logfile_check` supplies strictly exceeds the number of
iterations and the fuel-exhausted branch is unreachable there. -/
def scanLoop (j : Journal) : Nat → Nat → Nat → ScanAcc → ScanRes
  | 0, _, _, a => ScanRes.done a
  | fuel + 1, size, pos, a =>
    if pos < size then
      match scanBody j pos a with
      | StepRes.next a' => scanLoop j fuel size (nextPos pos) a'
      | StepRes.stop r => r
    else ScanRes.done a

/-- Modelled from the spec: the host/driver size constants
(`PAGE_SIZE`, `NtfsDefaultLogPageSize`, `NtfsMinLogRecordPages`,
`NtfsMaxLogFileSize`) are declared in headers outside src/; the spec treats
them abstractly ("default log page size", "minimum number of record
pages"), so they are parameters here. -/
structure ChkParams where
  PAGE_SIZE : Nat
  NtfsDefaultLogPageSize : Nat
  NtfsMinLogRecordPages : Nat
  NtfsMaxLogFileSize : Nat
  deriving DecidableEq

/-- The effective log page size (src/kext/ntfs_logfile.c:561-565): the
default log page size if `PAGE_SIZE` lies within [default, 2 × default],
else `PAGE_SIZE` itself. -/
def effLogPageSize (P : ChkParams) : Nat :=
  if P.NtfsDefaultLogPageSize ≤ P.PAGE_SIZE ∧
      P.PAGE_SIZE ≤ P.NtfsDefaultLogPageSize * 2 then
    P.NtfsDefaultLogPageSize
  else P.PAGE_SIZE

/-- One iteration step of `ffs` (least-significant set bit, 1-based). -/
def ffs_go : Nat → Nat → Nat
  | 0, _ => 0
  | fuel + 1, n => if n % 2 = 1 then 1 else ffs_go fuel (n / 2) + 1

/-- `ffs(n)`: 1-based index of the least significant set bit, 0 for 0 (the
libkern helper used at src/kext/ntfs_logfile.c:567; 64 iterations cover the
C's word sizes). -/
def ffs (n : Nat) : Nat := if n = 0 then 0 else ffs_go 64 n

/-- The usable journal size (src/kext/ntfs_logfile.c:550-568): the data
size clamped to `NtfsMaxLogFileSize` and truncated down to a multiple of
the effective log page size (`size &= ~(s64)(log_page_size - 1)`; the mask
equals subtracting the remainder since the page size is a power of two). -/
def usableSize (P : ChkParams) (data_size : Nat) : Nat :=
  let s := min data_size P.NtfsMaxLogFileSize
  s - s % effLogPageSize P

/-- The "$LogFile is too small" test (src/kext/ntfs_logfile.c:573-574):
fewer than two restart-page slots plus `NtfsMinLogRecordPages` record
pages, with `log_page_bits = ffs(log_page_size) - 1`. -/
def tooSmallB (P : ChkParams) (data_size : Nat) : Bool :=
  let lps := effLogPageSize P
  let size := usableSize P data_size
  decide (size < lps * 2) ||
    decide ((size - lps * 2) >>> (ffs lps - 1) < P.NtfsMinLogRecordPages)

/-- Error kinds of `ntfs_logfile_check`, distinguished as the C
distinguishes its exits (`tooSmall` and `noRestartPage` are both errno
`EINVAL` with distinct diagnostics; `io` carries the propagated errno). -/
inductive CheckErr where
  | tooSmall
  | noRestartPage
  | io (e : Nat)
  deriving DecidableEq

/-- Result data of `ntfs_logfile_check`: success with the out-parameter
`*rp` (`none` while the journal is empty or the caller passed no slot), or
an error. -/
inductive CheckRes where
  | ok (rp : Option LoadOk)
  | err (e : CheckErr)
  deriving DecidableEq

/-- Full outcome of `ntfs_logfile_check`: the result, the volume's
`NVolLogFileEmpty` flag after the call, and the restart-page buffers the
function freed before returning (ownership model of the spec's §5). -/
structure CheckOut where
  res : CheckRes
  flag : Bool
  freed : List LoadOk
  deriving DecidableEq

/-- `ntfs_logfile_check` (src/kext/ntfs_logfile.c:515-727).  `flag` is the
volume's `NVolLogFileEmpty` on entry, `wantRp` whether the caller passed a
non-NULL `rp` out-parameter.  The vnode/lock lifecycle collaborators are
out of scope (§1 of the spec) and modelled as succeeding. -/
def ntfs_logfile_check (P : ChkParams) (flag : Bool) (data_size : Nat)
    (j : Journal) (wantRp : Bool) : CheckOut :=
  if flag then ⟨CheckRes.ok none, flag, []⟩
  else if tooSmallB P data_size then ⟨CheckRes.err CheckErr.tooSmall, flag, []⟩
  else
    let size := usableSize P data_size
    match scanLoop j (size + 1) size 0 ⟨true, none, none⟩ with
    | ScanRes.fail e a => ⟨CheckRes.err (CheckErr.io e), flag, a.r1.toList⟩
    | ScanRes.done a =>
      if a.isEmpty then ⟨CheckRes.ok none, true, []⟩
      else
        match a.r1 with
        | none => ⟨CheckRes.err CheckErr.noRestartPage, flag, []⟩
        | some r1 =>
          match a.r2 with
          | none =>
            ⟨CheckRes.ok (if wantRp then some r1 else none), flag,
              if wantRp then [] else [r1]⟩
          | some r2 =>
            if r1.lsn < r2.lsn then
              ⟨CheckRes.ok (if wantRp then some r2 else none), flag,
                r1 :: if wantRp then [] else [r2]⟩
            else
              ⟨CheckRes.ok (if wantRp then some r1 else none), flag,
                r2 :: if wantRp then [] else [r1]⟩

/-- Result of `ntfs_logfile_empty`: 0 or an errno. -/
inductive EmptyRes where
  | ok
  | err (e : Nat)
  deriving DecidableEq

/-- Full outcome of `ntfs_logfile_empty`: the result, the
`NVolLogFileEmpty` flag after the call, and the `ntfs_attr_set` overwrite
requests issued (offset, length, fill byte). -/
structure EmptyOut where
  res : EmptyRes
  flag : Bool
  writes : List (Nat × Nat × Nat)
  deriving DecidableEq

/-- `ntfs_logfile_empty` (src/kext/ntfs_logfile.c:798-830).  `attrSetErr`
is the outcome of the external `ntfs_attr_set(ni, 0, data_size, 0xff)`
collaborator (`none` = success); the vnode/lock lifecycle collaborators are
out of scope (§1 of the spec) and modelled as succeeding. -/
def ntfs_logfile_empty (flag : Bool) (data_size : Nat)
    (attrSetErr : Option Nat) : EmptyOut :=
  if flag then ⟨EmptyRes.ok, flag, []⟩
  else
    match attrSetErr with
    | some e => ⟨EmptyRes.err e, flag, [(0, data_size, 0xff)]⟩
    | none => ⟨EmptyRes.ok, true, [(0, data_size, 0xff)]⟩

/-- Invariant of the scan accumulator: while every block seen so far was
empty, no restart page can have been accepted. -/
def ScanInv (a : ScanAcc) : Prop :=
  a.isEmpty = true → a.r1 = none ∧ a.r2 = none

/-- A sample restart area: one log client, open (in-use list head 0), clean
bit clear. -/
def raEx : RESTART_AREA :=
  { current_lsn := 0, log_clients := 1, client_free_list := LOGFILE_NO_CLIENT_CPU,
    client_in_use_list := 0, flags := 0, seq_number_bits := 67,
    restart_area_length := 208, client_array_offset := 48, file_size := 0,
    log_record_header_length := 0, log_page_data_offset := 0 }

/-- A sample validated restart page (RSTR magic). -/
def pageRstr : RESTART_PAGE_HEADER :=
  { magic := RecordMagic.rstr, system_page_size := 4096, log_page_size := 4096,
    restart_area_offset := 48, chkdsk_lsn := 0, ra := raEx }

/-- The same page with a magic that is neither RSTR nor CHKD. -/
def pageOther : RESTART_PAGE_HEADER := { pageRstr with magic := RecordMagic.other }

/-- Sample size parameters: 4 KiB pages, the usual defaults. -/
def P0 : ChkParams :=
  { PAGE_SIZE := 4096, NtfsDefaultLogPageSize := 4096, NtfsMinLogRecordPages := 48,
    NtfsMaxLogFileSize := 4294967296 }

/-- First loaded restart page, LSN 100. -/
def ldr1 : LoadOk := { page := pageRstr, lsn := 100 }

/-- Second loaded restart page, LSN 105. -/
def ldr2 : LoadOk := { page := pageRstr, lsn := 105 }

/-- A journal with valid restart pages at offsets 0 and 4096 (the two
restart-page slots for a 4 KiB system page size). -/
def j0 : Journal :=
  { magicAt := fun pos => if pos = 0 ∨ pos = 4096 then RecordMagic.rstr
      else RecordMagic.other,
    mapErr := fun _ => none,
    load := fun pos => if pos = 0 then LoadResult.ok ldr1
      else if pos = 4096 then LoadResult.ok ldr2 else LoadResult.invalid }

/-- Journal data size for the sample scan: 64 log pages. -/
def ds0 : Nat := 262144

/-- A client array whose every record is fully unlinked (both link fields
are the sentinel): index 0 is then a valid singleton list head for both the
free and the in-use list. -/
def caShared : Nat → LOG_CLIENT_RECORD :=
  fun _ => ⟨LOGFILE_NO_CLIENT_CPU, LOGFILE_NO_CLIENT_CPU⟩

/-- A client array of three records where the free list 0 → 1 → 2 has its
last node point back into the middle (record 2's next is 1): a cycle. -/
def caCycle : Nat → LOG_CLIENT_RECORD :=
  fun i => if i = 0 then ⟨LOGFILE_NO_CLIENT_CPU, 1⟩
    else if i = 1 then ⟨0, 2⟩ else ⟨1, 1⟩

theorem fs_bits_loop_le (fuel fs : Nat) : fs_bits_loop fuel fs ≤ fuel := by
  induction fuel generalizing fs with
  | zero => simp [fs_bits_loop]
  | succ n ih =>
    simp only [fs_bits_loop]
    split
    · exact Nat.zero_le _
    · exact Nat.succ_le_succ (ih _)

theorem fs_bits_of_le (fs : Nat) : fs_bits_of fs ≤ 64 := fs_bits_loop_le 64 fs

/-- C5: the sequence-number-bits check round-trips: an area whose
`seq_number_bits` equals `67 - bitlength(file_size)` (bit length by
repeated right shift, zero having bit length zero) passes that check, and
for every restart page, changing that field by +1 or -1 from the correct
value makes `ntfs_restart_area_is_valid` fail. -/
theorem restart_area_seq_number_bits_roundtrip :
    (∀ (ra : RESTART_AREA) (fs : Nat),
      seq_number_bits_ok
        { ra with file_size := fs, seq_number_bits := 67 - fs_bits_of fs } = true) ∧
    (∀ rp : RESTART_PAGE_HEADER,
      ntfs_restart_area_is_valid { rp with ra := { rp.ra with
        seq_number_bits := (67 - fs_bits_of rp.ra.file_size) + 1 } } = false ∧
      ntfs_restart_area_is_valid { rp with ra := { rp.ra with
        seq_number_bits := (67 - fs_bits_of rp.ra.file_size) - 1 } } = false) := by
  constructor
  · intro ra fs
    simp [seq_number_bits_ok]
  · intro rp
    have hb : fs_bits_of rp.ra.file_size ≤ 64 := fs_bits_of_le _
    constructor <;>
    · simp only [ntfs_restart_area_is_valid]
      split_ifs with h1 h2 h3 h4 h5 h6 h7 <;> try rfl
      exfalso
      simp only [seq_number_bits_ok, not_not, beq_iff_eq] at h5
      omega

/-- C9: on a non-empty journal, a non-null restart page whose magic is
neither RSTR nor CHKD makes `ntfs_logfile_is_clean` report dirty
(`some false`), not any other outcome. -/
theorem logfile_is_clean_bad_magic_dirty :
    ∀ p : RESTART_PAGE_HEADER,
      p.magic ≠ RecordMagic.rstr → p.magic ≠ RecordMagic.chkd →
      ntfs_logfile_is_clean false (some p) = some false := by
  intro p h1 h2
  simp [ntfs_logfile_is_clean, h1, h2]

theorem logfile_is_clean_bad_magic_dirty_witness :
    ntfs_logfile_is_clean false (some pageOther) = some false :=
  logfile_is_clean_bad_magic_dirty pageOther (by decide) (by decide)

/-- C1: the clean-shutdown determiner returns clean on an empty journal;
on a non-empty journal with a validated (RSTR or CHKD) restart page it
reports dirty exactly when the in-use-client-list head is not the
"no client" sentinel and the clean-volume flag bit is not set, and clean
in every other flag/list combination. -/
theorem logfile_is_clean_classification :
    (∀ rp : Option RESTART_PAGE_HEADER, ntfs_logfile_is_clean true rp = some true) ∧
    (∀ p : RESTART_PAGE_HEADER,
      p.magic = RecordMagic.rstr ∨ p.magic = RecordMagic.chkd →
      ((ntfs_logfile_is_clean false (some p) = some false ↔
        p.ra.client_in_use_list ≠ LOGFILE_NO_CLIENT_CPU ∧
          p.ra.flags &&& RESTART_VOLUME_IS_CLEAN = 0) ∧
       (ntfs_logfile_is_clean false (some p) = some true ↔
        ¬ (p.ra.client_in_use_list ≠ LOGFILE_NO_CLIENT_CPU ∧
          p.ra.flags &&& RESTART_VOLUME_IS_CLEAN = 0)))) := by
  constructor
  · intro rp
    simp [ntfs_logfile_is_clean]
  · intro p hm
    have hmagic : ¬ (p.magic ≠ RecordMagic.rstr ∧ p.magic ≠ RecordMagic.chkd) := by
      rcases hm with h | h <;> simp [h]
    by_cases hc : p.ra.client_in_use_list ≠ LOGFILE_NO_CLIENT_CPU ∧
        p.ra.flags &&& RESTART_VOLUME_IS_CLEAN = 0
    · simp [ntfs_logfile_is_clean, hmagic, hc]
    · simp [ntfs_logfile_is_clean, hmagic, hc]

theorem logfile_is_clean_classification_witness :
    ntfs_logfile_is_clean false (some pageRstr) = some false ↔
      pageRstr.ra.client_in_use_list ≠ LOGFILE_NO_CLIENT_CPU ∧
        pageRstr.ra.flags &&& RESTART_VOLUME_IS_CLEAN = 0 :=
  (logfile_is_clean_classification.2 pageRstr (Or.inl rfl)).1

/-- C6: `ntfs_logfile_empty` is a no-op returning success when the journal
is already marked empty; otherwise it issues exactly one overwrite of the
whole data extent with fill byte 0xFF, and the empty flag is set if and
only if that write succeeds — on failure the errno is returned unchanged
and the flag is left clear. -/
theorem logfile_empty_behavior :
    (∀ (ds : Nat) (e : Option Nat),
      ntfs_logfile_empty true ds e = ⟨EmptyRes.ok, true, []⟩) ∧
    (∀ ds : Nat,
      ntfs_logfile_empty false ds none = ⟨EmptyRes.ok, true, [(0, ds, 0xff)]⟩) ∧
    (∀ (ds e : Nat),
      ntfs_logfile_empty false ds (some e) =
        ⟨EmptyRes.err e, false, [(0, ds, 0xff)]⟩) :=
  ⟨fun _ _ => rfl, fun _ => rfl, fun _ _ => rfl⟩

/-- C3 counterexample: the code does not give the in-use list a fresh
budget.  With one client record linked into both lists as a singleton, a
fresh-budget validation (the spec's description) passes while the code's
shared-budget validation fails. -/
theorem client_array_fresh_budget_refuted :
    ntfs_log_client_array_is_consistent caShared 1 0 0 = false ∧
    client_array_consistent_freshBudget caShared 1 0 0 = true := by
  constructor <;> decide

theorem check_list_loop_chain_notFirst (ca : Nat → LOG_CLIENT_RECORD) (n : Nat)
    (hn : n ≤ LOGFILE_NO_CLIENT_CPU) :
    ∀ (L : List Nat) (idx : Nat), IsClientList ca n idx L →
      ∀ budget : Nat, L.length ≤ budget →
        check_list_loop ca n budget idx false = some (budget - L.length) := by
  intro L idx hchain
  induction hchain with
  | nil =>
    intro budget hlen
    cases budget <;> simp [check_list_loop]
  | @cons idx tail rest hidx hnext htail ih =>
    intro budget hlen
    have hidxne : idx ≠ LOGFILE_NO_CLIENT_CPU := by
      unfold LOGFILE_NO_CLIENT_CPU at *
      omega
    simp only [List.length_cons] at hlen
    match budget, hlen with
    | b + 1, hlen =>
      rw [check_list_loop, if_neg hidxne, if_neg (by omega), if_neg (by simp),
        hnext, ih b (by omega)]
      simp only [List.length_cons]
      congr 1
      omega

theorem check_list_loop_chain_first (ca : Nat → LOG_CLIENT_RECORD) (n : Nat)
    (hn : n ≤ LOGFILE_NO_CLIENT_CPU) (L : List Nat) (idx : Nat)
    (hchain : IsClientList ca n idx L)
    (hprev : ∀ i, L.head? = some i →
      (ca i).prev_client = LOGFILE_NO_CLIENT_CPU)
    (budget : Nat) (hlen : L.length ≤ budget) :
    check_list_loop ca n budget idx true = some (budget - L.length) := by
  cases hchain with
  | nil =>
    cases budget <;> simp [check_list_loop]
  | @cons idx tail rest hidx hnext htail =>
    have hidxne : idx ≠ LOGFILE_NO_CLIENT_CPU := by
      unfold LOGFILE_NO_CLIENT_CPU at *
      omega
    simp only [List.length_cons] at hlen
    match budget, hlen with
    | b + 1, hlen =>
      rw [check_list_loop, if_neg hidxne, if_neg (by omega),
        if_neg (by simp [hprev idx rfl]), hnext,
        check_list_loop_chain_notFirst ca n hn rest tail htail b (by omega)]
      simp only [List.length_cons]
      congr 1
      omega

theorem isClientList_mem_lt (ca : Nat → LOG_CLIENT_RECORD) (n : Nat) :
    ∀ (L : List Nat) (idx : Nat), IsClientList ca n idx L → ∀ i ∈ L, i < n := by
  intro L idx hchain
  induction hchain with
  | nil => intro i hi; simp at hi
  | @cons idx tail rest hidx hnext htail ih =>
    intro i hi
    rcases List.mem_cons.mp hi with h | h
    · omega
    · exact ih i h

theorem nodup_lt_length_le (L : List Nat) (n : Nat) (hnd : L.Nodup)
    (hlt : ∀ i ∈ L, i < n) : L.length ≤ n := by
  have hsub : L.toFinset ⊆ Finset.range n := by
    intro x hx
    exact Finset.mem_range.mpr (hlt x (List.mem_toFinset.mp hx))
  calc L.length = L.toFinset.card := (List.toFinset_card_of_nodup hnd).symm
    _ ≤ (Finset.range n).card := Finset.card_le_card hsub
    _ = n := Finset.card_range n

/-- C3 amended: the free list is traversed with a step budget initialized
to `log_clients`, failing when the budget is exhausted or an index is
`≥ log_clients`; the in-use list is then traversed with the budget
remaining from the free-list traversal (the C does not reinitialize it);
consequently, for every pair of well-formed disjoint lists — which
together visit at most `log_clients` records — validation passes. -/
theorem client_array_disjoint_lists_pass
    (ca : Nat → LOG_CLIENT_RECORD) (n hf hu : Nat) (Lf Lu : List Nat)
    (hn : n ≤ LOGFILE_NO_CLIENT_CPU)
    (hcf : IsClientList ca n hf Lf) (hcu : IsClientList ca n hu Lu)
    (hndf : Lf.Nodup) (hndu : Lu.Nodup) (hdisj : Lf.Disjoint Lu)
    (hpf : ∀ i, Lf.head? = some i →
      (ca i).prev_client = LOGFILE_NO_CLIENT_CPU)
    (hpu : ∀ i, Lu.head? = some i →
      (ca i).prev_client = LOGFILE_NO_CLIENT_CPU) :
    ntfs_log_client_array_is_consistent ca n hf hu = true := by
  have hlt : ∀ i ∈ Lf ++ Lu, i < n := by
    intro i hi
    rcases List.mem_append.mp hi with h | h
    · exact isClientList_mem_lt ca n Lf hf hcf i h
    · exact isClientList_mem_lt ca n Lu hu hcu i h
  have hlen : Lf.length + Lu.length ≤ n := by
    have := nodup_lt_length_le (Lf ++ Lu) n (hndf.append hndu hdisj) hlt
    simpa using this
  have h1 := check_list_loop_chain_first ca n hn Lf hf hcf hpf n (by omega)
  have h2 := check_list_loop_chain_first ca n hn Lu hu hcu hpu (n - Lf.length)
    (by omega)
  unfold ntfs_log_client_array_is_consistent
  rw [h1]
  simp [h2]

theorem client_array_disjoint_lists_pass_witness :
    ntfs_log_client_array_is_consistent caShared 2 0 1 = true :=
  client_array_disjoint_lists_pass caShared 2 0 1 [0] [1] (by decide)
    (IsClientList.cons (by decide) rfl IsClientList.nil)
    (IsClientList.cons (by decide) rfl IsClientList.nil)
    (by decide) (by decide)
    (by intro a ha hb; simp at ha hb; omega)
    (by intro i h; simp at h; subst h; rfl)
    (by intro i h; simp at h; subst h; rfl)

/-- C4: the client-list traversal visits at most its budget's worth of
records (so at most `log_clients` per traversal) — success consumes
exactly one budget unit per visited record — and the crafted cyclic list
of three records whose last node points back into the middle is rejected
rather than looped on. -/
theorem client_list_traversal_bounded :
    (∀ (ca : Nat → LOG_CLIENT_RECORD) (n budget idx : Nat) (first : Bool),
      check_list_visits ca n budget idx first ≤ budget) ∧
    (∀ (ca : Nat → LOG_CLIENT_RECORD) (n budget idx : Nat) (first : Bool) (b : Nat),
      check_list_loop ca n budget idx first = some b →
      b + check_list_visits ca n budget idx first = budget) ∧
    ntfs_log_client_array_is_consistent caCycle 3 0 LOGFILE_NO_CLIENT_CPU = false := by
  refine ⟨?_, ?_, by decide⟩
  · intro ca n budget
    induction budget with
    | zero =>
      intro idx first
      simp [check_list_visits]
    | succ m ih =>
      intro idx first
      rw [check_list_visits]
      split
      · exact Nat.zero_le _
      · split
        · exact Nat.zero_le _
        · split
          · omega
          · have := ih ((ca idx).next_client) false
            omega
  · intro ca n budget
    induction budget with
    | zero =>
      intro idx first b h
      rw [check_list_loop] at h
      rw [check_list_visits]
      split at h
      · simp at h
        omega
      · simp at h
    | succ m ih =>
      intro idx first b h
      rw [check_list_loop] at h
      rw [check_list_visits]
      split at h
      · rename_i hidx
        rw [if_pos hidx]
        simp at h
        omega
      · rename_i hidx
        rw [if_neg hidx]
        split at h
        · simp at h
        · split at h
          · simp at h
          · rename_i hrange hfirst
            rw [if_neg hrange, if_neg hfirst]
            have := ih ((ca idx).next_client) false b h
            omega

theorem client_list_traversal_bounded_witness :
    check_list_visits caShared 1 1 LOGFILE_NO_CLIENT_CPU true ≤ 1 ∧
    1 + check_list_visits caShared 1 1 LOGFILE_NO_CLIENT_CPU true = 1 ∧
    ntfs_log_client_array_is_consistent caCycle 3 0 LOGFILE_NO_CLIENT_CPU = false :=
  ⟨client_list_traversal_bounded.1 caShared 1 1 LOGFILE_NO_CLIENT_CPU true,
   client_list_traversal_bounded.2.1 caShared 1 1 LOGFILE_NO_CLIENT_CPU true 1
     (by decide),
   client_list_traversal_bounded.2.2⟩

theorem scanInv_of_isEmpty_false (a : ScanAcc) (ha : a.isEmpty = false) :
    ScanInv a := by
  intro h
  rw [ha] at h
  simp at h

theorem scanBody_inv (j : Journal) (pos : Nat) (a : ScanAcc) :
    (∀ a', scanBody j pos a = StepRes.next a' → ScanInv a → ScanInv a') ∧
    (∀ a', scanBody j pos a = StepRes.stop (ScanRes.done a') → ScanInv a → ScanInv a') := by
  unfold scanBody
  cases hm : j.mapErr pos with
  | some e =>
    constructor <;> intro a' h hinv <;> simp at h
  | none =>
    cases hmg : j.magicAt pos with
    | empty =>
      constructor <;> intro a' h hinv <;> (repeat' split at h) <;> simp at h <;>
        subst h <;> exact hinv
    | rcrd =>
      constructor <;> intro a' h hinv <;> simp at h
      subst h
      exact scanInv_of_isEmpty_false _ rfl
    | other =>
      constructor <;> intro a' h hinv <;> simp at h
      subst h
      exact scanInv_of_isEmpty_false _ rfl
    | rstr =>
      cases hld : j.load pos with
      | ok r =>
        constructor <;> intro a' h hinv <;> simp at h <;> split at h <;>
          split at h <;> simp at h <;> subst h <;>
          exact scanInv_of_isEmpty_false _ rfl
      | invalid =>
        constructor <;> intro a' h hinv <;> simp at h
        subst h
        exact scanInv_of_isEmpty_false _ rfl
      | fail e =>
        constructor <;> intro a' h hinv <;> simp at h
    | chkd =>
      cases hld : j.load pos with
      | ok r =>
        constructor <;> intro a' h hinv <;> simp at h <;> split at h <;>
          split at h <;> simp at h <;> subst h <;>
          exact scanInv_of_isEmpty_false _ rfl
      | invalid =>
        constructor <;> intro a' h hinv <;> simp at h
        subst h
        exact scanInv_of_isEmpty_false _ rfl
      | fail e =>
        constructor <;> intro a' h hinv <;> simp at h

theorem scanLoop_done_inv (j : Journal) :
    ∀ (fuel size pos : Nat) (a a' : ScanAcc),
      scanLoop j fuel size pos a = ScanRes.done a' → ScanInv a → ScanInv a' := by
  intro fuel
  induction fuel with
  | zero =>
    intro size pos a a' h hinv
    rw [scanLoop] at h
    cases h
    exact hinv
  | succ n ih =>
    intro size pos a a' h hinv
    rw [scanLoop] at h
    split at h
    · cases hb : scanBody j pos a with
      | next a1 =>
        rw [hb] at h
        exact ih size (nextPos pos) a1 a' h ((scanBody_inv j pos a).1 a1 hb hinv)
      | stop r =>
        rw [hb] at h
        simp at h
        subst h
        exact (scanBody_inv j pos a).2 a' hb hinv
    · cases h
      exact hinv

/-- C2: when the scan has found two valid restart pages (first `r1`, second
`r2`), `ntfs_logfile_check` keeps the second as authoritative exactly when
its LSN is strictly greater (ties keep the first), and the losing page's
buffer is freed before returning. -/
theorem logfile_check_lsn_tiebreak :
    ∀ (P : ChkParams) (ds : Nat) (j : Journal) (a : ScanAcc) (r1 r2 : LoadOk),
      tooSmallB P ds = false →
      scanLoop j (usableSize P ds + 1) (usableSize P ds) 0 ⟨true, none, none⟩ =
        ScanRes.done a →
      a.r1 = some r1 → a.r2 = some r2 →
      ntfs_logfile_check P false ds j true =
        ⟨CheckRes.ok (some (if r1.lsn < r2.lsn then r2 else r1)), false,
          [if r1.lsn < r2.lsn then r1 else r2]⟩ := by
  intro P ds j a r1 r2 hts hscan h1 h2
  have hinv : ScanInv a :=
    scanLoop_done_inv j (usableSize P ds + 1) (usableSize P ds) 0
      ⟨true, none, none⟩ a hscan (fun _ => ⟨rfl, rfl⟩)
  have hne : a.isEmpty = false := by
    cases he : a.isEmpty
    · rfl
    · have := (hinv he).1
      rw [h1] at this
      simp at this
  simp only [ntfs_logfile_check, hts, hscan, hne, h1, h2]
  by_cases hlt : r1.lsn < r2.lsn
  · simp [hlt]
  · simp [hlt]

theorem logfile_check_lsn_tiebreak_witness :
    ntfs_logfile_check P0 false ds0 j0 true =
      ⟨CheckRes.ok (some (if ldr1.lsn < ldr2.lsn then ldr2 else ldr1)), false,
        [if ldr1.lsn < ldr2.lsn then ldr1 else ldr2]⟩ :=
  logfile_check_lsn_tiebreak P0 ds0 j0 ⟨false, some ldr1, some ldr2⟩ ldr1 ldr2
    (by decide) (by decide) rfl rfl

/-- C7: once `ntfs_logfile_empty` has succeeded, a subsequent
`ntfs_logfile_check` consults only the empty flag: for every journal
content and data size it returns success with no restart page and frees
nothing. -/
theorem logfile_check_after_empty :
    ∀ (f : Bool) (ds : Nat) (e : Option Nat) (P : ChkParams) (ds' : Nat)
      (j : Journal) (w : Bool),
      (ntfs_logfile_empty f ds e).res = EmptyRes.ok →
      ntfs_logfile_check P (ntfs_logfile_empty f ds e).flag ds' j w =
        ⟨CheckRes.ok none, true, []⟩ := by
  intro f ds e P ds' j w h
  have hf : (ntfs_logfile_empty f ds e).flag = true := by
    cases f
    · cases e with
      | none => rfl
      | some e' => simp [ntfs_logfile_empty] at h
    · rfl
  rw [hf]
  rfl

theorem logfile_check_after_empty_witness :
    ntfs_logfile_check P0 (ntfs_logfile_empty false 0 none).flag 0 j0 true =
      ⟨CheckRes.ok none, true, []⟩ :=
  logfile_check_after_empty false 0 none P0 0 j0 true rfl

theorem ffs_go_pow : ∀ fuel k, k < fuel → ffs_go fuel (2 ^ k) = k + 1 := by
  intro fuel
  induction fuel with
  | zero => intro k hk; omega
  | succ n ih =>
    intro k hk
    cases k with
    | zero => simp [ffs_go]
    | succ m =>
      have h2 : 2 ^ (m + 1) % 2 = 0 := by
        rw [Nat.pow_succ]
        exact Nat.mul_mod_left _ _
      have hdiv : 2 ^ (m + 1) / 2 = 2 ^ m := by
        rw [Nat.pow_succ]
        exact Nat.mul_div_cancel _ (by norm_num)
      rw [ffs_go, if_neg (by omega), hdiv, ih m (by omega)]

theorem ffs_pow (k : Nat) (hk : k < 64) : ffs (2 ^ k) = k + 1 := by
  rw [ffs, if_neg (by positivity)]
  exact ffs_go_pow 64 k hk

/-- C8: a journal whose usable size (clamped and truncated to a multiple of
the effective log page size) is less than two restart-page slots plus the
minimum number of log record pages is rejected with the distinct `tooSmall`
error kind, for every journal content (so before any page is read), with
the empty flag unchanged and nothing freed. -/
theorem logfile_check_too_small :
    ∀ (P : ChkParams) (ds : Nat) (j : Journal) (w : Bool),
      (∃ k, k < 64 ∧ P.PAGE_SIZE = 2 ^ k) →
      (∃ m, m < 64 ∧ P.NtfsDefaultLogPageSize = 2 ^ m) →
      usableSize P ds <
        effLogPageSize P * 2 + P.NtfsMinLogRecordPages * effLogPageSize P →
      ntfs_logfile_check P false ds j w =
        ⟨CheckRes.err CheckErr.tooSmall, false, []⟩ := by
  intro P ds j w hp hd hlt
  obtain ⟨k, hk, hlps⟩ : ∃ k, k < 64 ∧ effLogPageSize P = 2 ^ k := by
    obtain ⟨kp, hkp, hps⟩ := hp
    obtain ⟨km, hkm, hdf⟩ := hd
    unfold effLogPageSize
    split
    · exact ⟨km, hkm, hdf⟩
    · exact ⟨kp, hkp, hps⟩
  have hlpos : 0 < effLogPageSize P := by
    rw [hlps]
    positivity
  have hsize : usableSize P ds =
      effLogPageSize P * (min ds P.NtfsMaxLogFileSize / effLogPageSize P) := by
    have := Nat.div_add_mod (min ds P.NtfsMaxLogFileSize) (effLogPageSize P)
    simp only [usableSize]
    omega
  have hts : tooSmallB P ds = true := by
    unfold tooSmallB
    rcases Nat.lt_or_ge (min ds P.NtfsMaxLogFileSize / effLogPageSize P) 2 with
      h2 | h2
    · have hfirst : usableSize P ds < effLogPageSize P * 2 := by
        rw [hsize]
        exact mul_lt_mul_of_pos_left h2 hlpos
      simp [hfirst]
    · obtain ⟨d, hd2⟩ := Nat.le.dest h2
      have hq : usableSize P ds - effLogPageSize P * 2 = effLogPageSize P * d := by
        rw [hsize, ← hd2, Nat.mul_add]
        omega
      have hdlt : d < P.NtfsMinLogRecordPages := by
        rw [hsize, ← hd2, Nat.mul_add] at hlt
        have h2d : effLogPageSize P * d < P.NtfsMinLogRecordPages * effLogPageSize P := by
          omega
        rw [Nat.mul_comm (effLogPageSize P) d] at h2d
        exact Nat.lt_of_mul_lt_mul_right h2d
      have hshift : (usableSize P ds - effLogPageSize P * 2) >>>
          (ffs (effLogPageSize P) - 1) = d := by
        rw [hq, hlps, ffs_pow k hk, Nat.add_sub_cancel,
          Nat.shiftRight_eq_div_pow]
        exact Nat.mul_div_cancel_left _ (by positivity)
      simp [hshift, hdlt]
  simp [ntfs_logfile_check, hts]

theorem logfile_check_too_small_witness :
    ntfs_logfile_check P0 false 4096 j0 true =
      ⟨CheckRes.err CheckErr.tooSmall, false, []⟩ :=
  logfile_check_too_small P0 4096 j0 true ⟨12, by omega, rfl⟩ ⟨12, by omega, rfl⟩
    (by decide)

/-- C10: the journal-empty flag is monotone: `ntfs_logfile_check` and
`ntfs_logfile_empty` only ever set it and never clear it, and once it is
set, each operation observes it set (`ntfs_logfile_is_clean` reads the
volume state but never writes it, so it is embedded as a pure function of
the flag). -/
theorem logfile_empty_flag_monotone :
    (∀ (P : ChkParams) (ds : Nat) (j : Journal) (w : Bool),
      (ntfs_logfile_check P true ds j w).flag = true) ∧
    (∀ (P : ChkParams) (f : Bool) (ds : Nat) (j : Journal) (w : Bool),
      (ntfs_logfile_check P f ds j w).flag = false → f = false) ∧
    (∀ (ds : Nat) (e : Option Nat), (ntfs_logfile_empty true ds e).flag = true) ∧
    (∀ (f : Bool) (ds : Nat) (e : Option Nat),
      (ntfs_logfile_empty f ds e).flag = false → f = false) ∧
    (∀ rp : Option RESTART_PAGE_HEADER,
      ntfs_logfile_is_clean true rp = some true) := by
  refine ⟨fun P ds j w => rfl, ?_, fun ds e => rfl, ?_, fun rp => rfl⟩
  · intro P f ds j w h
    cases f
    · rfl
    · simp [ntfs_logfile_check] at h
  · intro f ds e h
    cases f
    · rfl
    · simp [ntfs_logfile_empty] at h

theorem logfile_empty_flag_monotone_witness :
    (ntfs_logfile_check P0 true 0 j0 true).flag = true ∧ false = false ∧
      (ntfs_logfile_empty true 0 none).flag = true ∧
      ntfs_logfile_is_clean true none = some true :=
  ⟨logfile_empty_flag_monotone.1 P0 0 j0 true,
   logfile_empty_flag_monotone.2.1 P0 false 0 j0 true (by decide),
   logfile_empty_flag_monotone.2.2.1 0 none,
   logfile_empty_flag_monotone.2.2.2.2 none⟩

end NtfsLogfile
